import Mathlib

/-!
Verification of the wacz-preparator collection pipeline (src/index.js).

JavaScript strings are modelled as lists of characters so that every string
operation reduces inside the kernel. Nullable JS values are `Option`s; a JS
value that can also be `undefined`, `NaN` or a string is the inductive `JSVal`.
Network and host effects (HTTP fetches, `new Date`, SHA-1, the filesystem) are
passed in as explicit inputs or function parameters, and each routine below is
a direct transcription of the corresponding function of `Preparator` in
src/index.js.
-/

/-- JavaScript strings, modelled as character lists. -/
abbrev JSStr := List Char

/-- The space character, written numerically. -/
def spaceChar : Char := Char.ofNat 32

/-- JS `String.prototype.endsWith`. -/
def jsEndsWith (s suffixStr : JSStr) : Bool :=
  suffixStr.isSuffixOf s

/-- JS `String.prototype.includes`: substring test. -/
def jsContains (s sub : JSStr) : Bool :=
  match s with
  | [] => sub.isEmpty
  | _ :: rest => sub.isPrefixOf s || jsContains rest sub

/-- JS `String.prototype.replace` with a plain-string (single character)
pattern: only the first occurrence is replaced. -/
def jsReplaceFirst (s : JSStr) (pat repl : Char) : JSStr :=
  match s with
  | [] => []
  | c :: rest => if c = pat then repl :: rest else c :: jsReplaceFirst rest pat repl

/-- JS truthiness of a nullable string: `null` and the empty string are falsy. -/
def strTruthy : Option JSStr → Bool
  | none => false
  | some s => !s.isEmpty

/-- The synthetic-batch marker substring used by Archive-It. -/
def MISSING_URLS_PATCH : JSStr := "MISSING_URLS_PATCH".toList

/-- The capture-file extension tested by deleteLooseWARCs. -/
def warcGzSuffix : JSStr := ".warc.gz".toList

/-- One entry of `WARCReference.crawledUrls` (class ArchiveItCrawledUrl,
src/index.types.js): all fields are nullable and default to null. -/
structure ArchiveItCrawledUrl where
  seedId : Option Int
  url : Option JSStr
  timestamp : Option JSStr
  title : Option JSStr
deriving DecidableEq, Repr

/-- Reference to one WARC file (class ArchiveItWARCReference,
src/index.types.js). `filename` is kept as a plain string: every routine the
claims concern reads it with string methods, which would throw in JS on the
null default; the claims only exercise references built from a remote listing
entry that carries a filename. -/
structure ArchiveItWARCReference where
  downloadUrl : Option JSStr
  downloaded : Bool
  filename : JSStr
  remoteSHA1Hash : Option JSStr
  localSHA1Hash : Option JSStr
  crawlId : Option Int
  crawledUrls : List ArchiveItCrawledUrl
deriving DecidableEq, Repr

/-- One entry pushed onto `this.pages` by generatePagesList: the `url` field
copies the (nullable) crawl url, `title` is the truthy title string, and `ts`
is the result of formatTimestamp (null when normalization failed). -/
structure WACZPage where
  url : Option JSStr
  title : JSStr
  ts : Option JSStr
deriving DecidableEq, Repr

/-- The stages of `Preparator.process` (src/index.js lines 112-234), in
source order. -/
inductive PipelineStage where
  | checkCredentials
  | createCollectionFolder
  | fetchCollectionInfo
  | fetchWARCsList
  | fetchWARCsCrawlInfo
  | fetchCrawledUrlsTitle
  | deleteLooseWARCs
  | checkWARCsHashes1
  | fetchWARCs
  | checkWARCsHashes2
  | generatePagesList
  | generateWACZ
  | printReport
deriving DecidableEq, Repr

/-- Whether each awaited stage call of one run returns normally (`true`) or
throws (`false`). The two checkWARCsHashes calls are distinguished. -/
structure StageOutcomes where
  checkCredentials : Bool
  createCollectionFolder : Bool
  fetchCollectionInfo : Bool
  fetchWARCsList : Bool
  fetchWARCsCrawlInfo : Bool
  fetchCrawledUrlsTitle : Bool
  deleteLooseWARCs : Bool
  checkWARCsHashes1 : Bool
  fetchWARCs : Bool
  checkWARCsHashes2 : Bool
  generatePagesList : Bool
  generateWACZ : Bool
deriving DecidableEq, Repr

/-- Observable result of one run of `Preparator.process`: the stages whose
body ran, the stages whose catch block ran (their error got logged), and the
JS return value — `some false` for an explicit `return false`, `none` for the
fall-through at the end of the function body (JS `undefined`). -/
structure ProcessTrace where
  executed : List PipelineStage
  caught : List PipelineStage
  ret : Option Bool
deriving DecidableEq, Repr

/-- Model of `Preparator.process` (src/index.js lines 112-234): the stage calls in
source order with their try/catch policy. Every catch except the one around
fetchCrawledUrlsTitle ends in `return false`; after printReport the function
body ends without a return statement. -/
def process (o : StageOutcomes) : ProcessTrace :=
  let ex1 : List PipelineStage := [.checkCredentials]
  if o.checkCredentials = false then ⟨ex1, [.checkCredentials], some false⟩ else
  let ex2 := ex1 ++ [.createCollectionFolder]
  if o.createCollectionFolder = false then ⟨ex2, [.createCollectionFolder], some false⟩ else
  let ex3 := ex2 ++ [.fetchCollectionInfo]
  if o.fetchCollectionInfo = false then ⟨ex3, [.fetchCollectionInfo], some false⟩ else
  let ex4 := ex3 ++ [.fetchWARCsList]
  if o.fetchWARCsList = false then ⟨ex4, [.fetchWARCsList], some false⟩ else
  let ex5 := ex4 ++ [.fetchWARCsCrawlInfo]
  if o.fetchWARCsCrawlInfo = false then ⟨ex5, [.fetchWARCsCrawlInfo], some false⟩ else
  let ex6 := ex5 ++ [.fetchCrawledUrlsTitle]
  let caught6 : List PipelineStage :=
    if o.fetchCrawledUrlsTitle = false then [.fetchCrawledUrlsTitle] else []
  let ex7 := ex6 ++ [.deleteLooseWARCs]
  if o.deleteLooseWARCs = false then ⟨ex7, caught6 ++ [.deleteLooseWARCs], some false⟩ else
  let ex8 := ex7 ++ [.checkWARCsHashes1]
  if o.checkWARCsHashes1 = false then ⟨ex8, caught6 ++ [.checkWARCsHashes1], some false⟩ else
  let ex9 := ex8 ++ [.fetchWARCs]
  if o.fetchWARCs = false then ⟨ex9, caught6 ++ [.fetchWARCs], some false⟩ else
  let ex10 := ex9 ++ [.checkWARCsHashes2]
  if o.checkWARCsHashes2 = false then ⟨ex10, caught6 ++ [.checkWARCsHashes2], some false⟩ else
  let ex11 := ex10 ++ [.generatePagesList]
  if o.generatePagesList = false then ⟨ex11, caught6 ++ [.generatePagesList], some false⟩ else
  let ex12 := ex11 ++ [.generateWACZ]
  if o.generateWACZ = false then ⟨ex12, caught6 ++ [.generateWACZ], some false⟩ else
  ⟨ex12 ++ [.printReport], caught6, none⟩

/-- A run in which every awaited stage call returns normally. -/
def allStagesSucceed : StageOutcomes :=
  ⟨true, true, true, true, true, true, true, true, true, true, true, true⟩

/-- The local helper formatTimestamp of generatePagesList (src/index.js lines
722-731). `dateToIso` stands for the host operation
`s => new Date(s).toISOString()`, with `none` modelling the RangeError an
invalid date throws; the surrounding try/catch also swallows the TypeError of
calling `.replace` on a null timestamp, hence the `none` input case. -/
def formatTimestamp (dateToIso : JSStr → Option JSStr) :
    Option JSStr → Option JSStr
  | none => none
  | some ts =>
    let normalized := jsReplaceFirst ts spaceChar 'T' ++ ['Z']
    match dateToIso normalized with
    | none => none
    | some iso => some (iso.takeWhile (fun c => c ≠ '.') ++ ['Z'])

/-- Body of the inner loop of generatePagesList (src/index.js lines 744-755):
a crawl with a falsy title is skipped, any other crawl is pushed with the
formatted (possibly null) timestamp. -/
def pageOfCrawl (dateToIso : JSStr → Option JSStr) (crawl : ArchiveItCrawledUrl) :
    Option WACZPage :=
  match crawl.title with
  | none => none
  | some t =>
    if t.isEmpty then none
    else some ⟨crawl.url, t, formatTimestamp dateToIso crawl.timestamp⟩

/-- Pages contributed by one WARC reference in generatePagesList (src/index.js
lines 733-756): a reference whose filename contains the MISSING_URLS_PATCH
marker is skipped whole. (The `if (!entry.crawledUrls) continue` guard of the
source only fires on a null field — a JS array, even empty, is truthy — and
`crawledUrls` is always an array here.) -/
def pagesOfWARC (dateToIso : JSStr → Option JSStr) (entry : ArchiveItWARCReference) :
    List WACZPage :=
  if jsContains entry.filename MISSING_URLS_PATCH then []
  else entry.crawledUrls.filterMap (pageOfCrawl dateToIso)

/-- Model of `Preparator.generatePagesList` (src/index.js lines 715-757): resets
`this.pages` and pushes entries in reference order, then crawl order. -/
def generatePagesList (dateToIso : JSStr → Option JSStr)
    (WARCs : List ArchiveItWARCReference) : List WACZPage :=
  (WARCs.map (pagesOfWARC dateToIso)).flatten

/-- Model of `Preparator.deleteLooseWARCs` (src/index.js lines 592-608). The directory
listing is the list of filenames returned by readdir; a file is kept exactly
when it ends in ".warc.gz" and its name is a key of the `inCollection` object
(a filename of `this.WARCs`); every other entry is removed. Returns the pair
(entries kept on disk, entries deleted). -/
def deleteLooseWARCs (WARCs : List ArchiveItWARCReference) (dirListing : List JSStr) :
    List JSStr × List JSStr :=
  let inCollection := WARCs.map (fun w => w.filename)
  (dirListing.filter (fun f => jsEndsWith f warcGzSuffix && inCollection.contains f),
   dirListing.filter (fun f => !(jsEndsWith f warcGzSuffix && inCollection.contains f)))

/-- Inner loop of the grouping pass of `Preparator.fetchCrawledUrlsTitle`
(src/index.js lines 562-570): push crawled urls while the group is below the
concurrency limit, and break out of the inner loop as soon as the group is
full — the remaining crawled urls of the reference are not revisited. -/
def fillTitleGroup (concurrency : Nat) (group : List ArchiveItCrawledUrl) :
    List ArchiveItCrawledUrl → List ArchiveItCrawledUrl
  | [] => group
  | c :: rest =>
    let g := if group.length < concurrency then group ++ [c] else group
    if concurrency ≤ g.length then g else fillTitleGroup concurrency g rest

/-- Outer loop of `Preparator.fetchCrawledUrlsTitle` (src/index.js lines
554-584), returning the groups of crawled urls that are actually handed to
Promise.allSettled. A MISSING_URLS_PATCH reference is skipped with `continue`
(so the flush test is skipped as well); a group is flushed when
`group.length >= concurrency || i >= this.WARCs.length`, and the second
disjunct is never true inside the loop, so when the item list runs out, the
pending group is simply dropped. -/
def titleGroupsLoop (concurrency : Nat) :
    List ArchiveItWARCReference → List ArchiveItCrawledUrl →
    List (List ArchiveItCrawledUrl)
  | [], _group => []
  | ref :: rest, group =>
    if jsContains ref.filename MISSING_URLS_PATCH then
      titleGroupsLoop concurrency rest group
    else
      let g := fillTitleGroup concurrency group ref.crawledUrls
      if concurrency ≤ g.length then g :: titleGroupsLoop concurrency rest []
      else titleGroupsLoop concurrency rest g

/-- The crawled urls for which `Preparator.fetchCrawledUrlsTitle` ever starts
a title resolution: the members of the launched groups, in launch order. -/
def fetchCrawledUrlsTitleAttempts (concurrency : Nat)
    (WARCs : List ArchiveItWARCReference) : List ArchiveItCrawledUrl :=
  (titleGroupsLoop concurrency WARCs []).flatten

/-- Outcome of the Wayback replay fetch inside fetchOne (src/index.js lines
533-538): HTTP status, whether the content-type header starts with
"text/html", and the text content of the `<title>` element of the parsed
body. -/
structure WaybackResponse where
  status : Nat
  contentTypeHtml : Bool
  titleText : JSStr
deriving DecidableEq, Repr

/-- The placeholder title the spec says must be discarded. -/
def archiveItWaybackSentinel : JSStr := "Archive-it Wayback".toList

/-- Title-resolution logic of the local fetchOne of
`Preparator.fetchCrawledUrlsTitle` (src/index.js lines 506-551).
`metaTitle` is the value obtained by the first (seed-metadata) attempt, with
`none` covering a missing seedId, a thrown fetch, or an absent Title field;
`wayback` is the replay fetch of the second attempt, `none` when that fetch
throws. Returns the final `crawl.title`, given its previous value: the source
assigns `crawl.title = title` only when the local `title` ends up truthy. -/
def resolveOneTitle (metaTitle : Option JSStr) (wayback : Option WaybackResponse)
    (crawlTitle : Option JSStr) : Option JSStr :=
  let title1 : Option JSStr := metaTitle
  let title2 : Option JSStr :=
    if !strTruthy title1 then
      match wayback with
      | none => title1
      | some r =>
        if r.status = 200 && r.contentTypeHtml then
          -- transcribes the source line
          --   title = title === [the sentinel] ? null : html.querySelector(...).textContent
          -- where the comparison reads the pre-extraction value of the local title
          if title1 = some archiveItWaybackSentinel then none else some r.titleText
        else title1
    else title1
  if strTruthy title2 then title2 else crawlTitle

/-- Local filesystem view of one WARC path as seen by checkWARCsHashes:
whether `access(filepath)` succeeds, and the bytes `readFile` returns
(`none` when reading throws, which the source catches). -/
structure LocalFile where
  present : Bool
  content : Option JSStr
deriving DecidableEq, Repr

/-- One iteration of the `Preparator.checkWARCsHashes` loop (src/index.js
lines 617-645) on a single entry. `sha1` stands for the host digest
`data => createHash("sha1").update(data).digest("hex")`. Returns the updated
entry together with whether the local file is still on disk afterwards; on a
read failure the entry keeps its previous `localSHA1Hash`, exactly as the
source does. -/
def checkOneWARCHash (sha1 : JSStr → JSStr) (file : LocalFile)
    (entry : ArchiveItWARCReference) : ArchiveItWARCReference × Bool :=
  let entry1 := { entry with downloaded := true }
  if file.present = false then ({ entry1 with downloaded := false }, false)
  else
    let entry2 :=
      match file.content with
      | some data => { entry1 with localSHA1Hash := some (sha1 data) }
      | none => { entry1 with downloaded := false }
    match entry2.localSHA1Hash with
    | some digest =>
      -- transcribes: if (entry.localSHA1Hash && entry.localSHA1Hash !== entry.remoteSHA1Hash)
      if digest.isEmpty = false ∧ some digest ≠ entry2.remoteSHA1Hash then
        ({ entry2 with downloaded := false }, false)
      else (entry2, true)
    | none => (entry2, true)

/-- Model of `Preparator.checkWARCsHashes` over the whole WARC list: the loop body
touches only the entry at hand and its own filepath, so the run is the map of
the single-entry step over the (entry, local file) pairs. -/
def checkWARCsHashes (sha1 : JSStr → JSStr)
    (entries : List (ArchiveItWARCReference × LocalFile)) :
    List (ArchiveItWARCReference × Bool) :=
  entries.map (fun p => checkOneWARCHash sha1 p.2 p.1)

/-- Grouping loop of `Preparator.fetchWARCsCrawlInfo` (src/index.js lines
465-484): push the current reference while the group is below the limit, and
flush (hand to Promise.allSettled) when the group is full or the loop is at
the last index (`i === this.WARCs.length - 1`). Returns the launched groups
in order. -/
def crawlInfoGroupsLoop (concurrency : Nat) :
    List ArchiveItWARCReference → List ArchiveItWARCReference →
    List (List ArchiveItWARCReference)
  | [], _group => []
  | [r], group =>
    let g := if group.length < concurrency then group ++ [r] else group
    [g]
  | r :: rest, group =>
    let g := if group.length < concurrency then group ++ [r] else group
    if concurrency ≤ g.length then g :: crawlInfoGroupsLoop concurrency rest []
    else crawlInfoGroupsLoop concurrency rest g

/-- The groups Promise.allSettled receives across one run of
fetchWARCsCrawlInfo. -/
def fetchWARCsCrawlInfoGroups (concurrency : Nat)
    (WARCs : List ArchiveItWARCReference) : List (List ArchiveItWARCReference) :=
  crawlInfoGroupsLoop concurrency WARCs []

/-- Grouping loop of `Preparator.fetchWARCs` (src/index.js lines 682-704):
identical to the crawl-info loop except that a reference is pushed only when
`ref.downloaded === false`. -/
def fetchWARCsGroupsLoop (concurrency : Nat) :
    List ArchiveItWARCReference → List ArchiveItWARCReference →
    List (List ArchiveItWARCReference)
  | [], _group => []
  | [r], group =>
    let g := if group.length < concurrency ∧ r.downloaded = false
             then group ++ [r] else group
    [g]
  | r :: rest, group =>
    let g := if group.length < concurrency ∧ r.downloaded = false
             then group ++ [r] else group
    if concurrency ≤ g.length then g :: fetchWARCsGroupsLoop concurrency rest []
    else fetchWARCsGroupsLoop concurrency rest g

/-- The groups Promise.allSettled receives across one run of fetchWARCs. -/
def fetchWARCsGroups (concurrency : Nat)
    (WARCs : List ArchiveItWARCReference) : List (List ArchiveItWARCReference) :=
  fetchWARCsGroupsLoop concurrency WARCs []

/-- Model of `Promise.allSettled(group.map(ref => fetchOne(ref)))`: every member of the
group settles to its own outcome; a rejection neither cancels its siblings nor
stops the caller, which only logs rejected outcomes and goes on. -/
def settleGroup {α ε : Type} (op : α → Except ε Unit) (group : List α) :
    List (Except ε Unit) :=
  group.map op

/-- Per-item outcome groups of one run of fetchWARCsCrawlInfo, when the
crawl-info fetch of a single reference settles as `op` says. -/
def fetchWARCsCrawlInfoOutcomes {ε : Type} (concurrency : Nat)
    (op : ArchiveItWARCReference → Except ε Unit)
    (WARCs : List ArchiveItWARCReference) : List (List (Except ε Unit)) :=
  (fetchWARCsCrawlInfoGroups concurrency WARCs).map (settleGroup op)

/-- Per-item outcome groups of one run of fetchWARCs. -/
def fetchWARCsOutcomes {ε : Type} (concurrency : Nat)
    (op : ArchiveItWARCReference → Except ε Unit)
    (WARCs : List ArchiveItWARCReference) : List (List (Except ε Unit)) :=
  (fetchWARCsGroups concurrency WARCs).map (settleGroup op)

/-- Per-item outcome groups of one run of fetchCrawledUrlsTitle. -/
def fetchCrawledUrlsTitleOutcomes {ε : Type} (concurrency : Nat)
    (op : ArchiveItCrawledUrl → Except ε Unit)
    (WARCs : List ArchiveItWARCReference) : List (List (Except ε Unit)) :=
  (titleGroupsLoop concurrency WARCs []).map (settleGroup op)

/-- A JS value as far as the option filtering of the constructor observes it:
undefined (also standing for an absent options object), a finite number, NaN,
or a string. -/
inductive JSVal where
  | vundefined
  | vnum (n : Int)
  | vnan
  | vstr (s : JSStr)
deriving DecidableEq, Repr

/-- JS truthiness: undefined, NaN, 0 and the empty string are falsy. -/
def JSVal.truthy : JSVal → Bool
  | .vundefined => false
  | .vnan => false
  | .vnum n => n ≠ 0
  | .vstr s => !s.isEmpty

/-- JS `Number(v)`, with `none` modelling NaN. The string grammar of Number is
a host detail and is passed in as `strToNum` (`none` = NaN). -/
def jsNumber (strToNum : JSStr → Option Int) : JSVal → Option Int
  | .vundefined => none
  | .vnan => none
  | .vnum n => some n
  | .vstr s => strToNum s

/-- The concurrency branch of `Preparator.filterNonBlockingOptions`
(src/index.js lines 288-298). The input is `options?.concurrency` (`none` when
the options object or the field is absent). The guard `if (options?.concurrency)`
skips any falsy value silently; inside it, `Number(options.concurrency)` must
be a number strictly above 0 or the two asserts throw into the catch, which
warns and keeps the default of 50. Returns the stored `this.concurrency`
paired with whether `log.warn` ran; the branch itself never throws. -/
def filterConcurrency (strToNum : JSStr → Option Int)
    (optConcurrency : Option JSVal) : Int × Bool :=
  match optConcurrency with
  | none => (50, false)
  | some v =>
    if v.truthy then
      match jsNumber strToNum v with
      | some n => if 0 < n then (n, false) else (50, true)
      | none => (50, true)
    else (50, false)

/-! Helper lemmas shared by the claim theorems. -/

/-- Unfolding lemma: settling a group is mapping the operation over it. -/
lemma settleGroup_eq_map {α ε : Type} (op : α → Except ε Unit) :
    settleGroup op = List.map op := rfl

/-- Loop invariant of the fetchWARCsCrawlInfo grouping: on a nonempty item
list, the launched groups cover the pending group followed by every item. -/
lemma crawlInfoGroupsLoop_flatten (concurrency : Nat) :
    ∀ (items group : List ArchiveItWARCReference), items ≠ [] →
      group.length < concurrency →
      (crawlInfoGroupsLoop concurrency items group).flatten = group ++ items := by
  intro items
  induction items with
  | nil => intro group h _; exact absurd rfl h
  | cons r rest ih =>
    intro group _ hlen
    have h0 : 0 < concurrency := Nat.lt_of_le_of_lt (Nat.zero_le _) hlen
    cases rest with
    | nil =>
      simp only [crawlInfoGroupsLoop]
      rw [if_pos hlen]
      simp
    | cons r2 rest2 =>
      simp only [crawlInfoGroupsLoop]
      rw [if_pos hlen]
      by_cases hfull : concurrency ≤ (group ++ [r]).length
      · rw [if_pos hfull]
        rw [List.flatten_cons, ih [] (by simp) (by simpa using h0)]
        simp
      · rw [if_neg hfull]
        rw [ih (group ++ [r]) (by simp) (by omega)]
        simp

/-- Loop invariant of the fetchWARCs grouping: on a nonempty item list, the
launched groups cover the pending group followed by every item still marked
not downloaded. -/
lemma fetchWARCsGroupsLoop_flatten (concurrency : Nat) :
    ∀ (items group : List ArchiveItWARCReference), items ≠ [] →
      group.length < concurrency →
      (fetchWARCsGroupsLoop concurrency items group).flatten
        = group ++ items.filter (fun r => !r.downloaded) := by
  intro items
  induction items with
  | nil => intro group h _; exact absurd rfl h
  | cons r rest ih =>
    intro group _ hlen
    have h0 : 0 < concurrency := Nat.lt_of_le_of_lt (Nat.zero_le _) hlen
    have hpush : (if group.length < concurrency ∧ r.downloaded = false
        then group ++ [r] else group)
          = group ++ (if r.downloaded = false then [r] else []) := by
      by_cases hd : r.downloaded = false
      · rw [if_pos ⟨hlen, hd⟩, if_pos hd]
      · rw [if_neg (fun h => hd h.2), if_neg hd]
        simp
    cases rest with
    | nil =>
      simp only [fetchWARCsGroupsLoop]
      rw [hpush]
      cases hd : r.downloaded
      · simp [hd, List.filter]
      · simp [hd, List.filter]
    | cons r2 rest2 =>
      simp only [fetchWARCsGroupsLoop]
      rw [hpush]
      by_cases hfull :
          concurrency ≤ (group ++ (if r.downloaded = false then [r] else [])).length
      · rw [if_pos hfull]
        rw [List.flatten_cons, ih [] (by simp) (by simpa using h0)]
        cases hd : r.downloaded
        · simp [hd, List.filter]
        · simp [hd, List.filter]
      · rw [if_neg hfull]
        rw [ih (group ++ (if r.downloaded = false then [r] else [])) (by simp) (by omega)]
        cases hd : r.downloaded
        · simp [hd, List.filter]
        · simp [hd, List.filter]

/-- Case analysis of one checkWARCsHashes iteration: absent file, present with
mismatching truthy digest, present with matching digest. -/
lemma checkOneWARCHash_cases (sha1 : JSStr → JSStr) (file : LocalFile)
    (entry : ArchiveItWARCReference) :
    (file.present = false →
      (checkOneWARCHash sha1 file entry).1.downloaded = false
        ∧ (checkOneWARCHash sha1 file entry).2 = false)
    ∧ (∀ data, file.present = true → file.content = some data →
        (sha1 data).isEmpty = false → some (sha1 data) ≠ entry.remoteSHA1Hash →
        (checkOneWARCHash sha1 file entry).2 = false
          ∧ (checkOneWARCHash sha1 file entry).1.downloaded = false)
    ∧ (∀ data, file.present = true → file.content = some data →
        some (sha1 data) = entry.remoteSHA1Hash →
        (checkOneWARCHash sha1 file entry).1.downloaded = true
          ∧ (checkOneWARCHash sha1 file entry).2 = true) := by
  refine ⟨?_, ?_, ?_⟩
  · intro h
    simp [checkOneWARCHash, h]
  · intro data hp hc hne hd
    simp [checkOneWARCHash, hp, hc, hne, hd]
  · intro data hp hc hd
    simp [checkOneWARCHash, hp, hc, ← hd]

/-! Claim theorems. -/

/-- C1. The claim says `Preparator.process` returns a truthy success value
once every gating stage completes. On a run where every stage call returns
normally, the source instead reaches the final `this.printReport()` and then
falls off the end of the function body: the JS return value is `undefined`
(falsy), not a truthy boolean, contradicting the `@returns {Promise<boolean>}`
annotation of the source. -/
theorem process_all_success_returns_undefined :
    (process allStagesSucceed).ret = none
    ∧ (process allStagesSucceed).executed =
      [.checkCredentials, .createCollectionFolder, .fetchCollectionInfo, .fetchWARCsList,
       .fetchWARCsCrawlInfo, .fetchCrawledUrlsTitle, .deleteLooseWARCs, .checkWARCsHashes1,
       .fetchWARCs, .checkWARCsHashes2, .generatePagesList, .generateWACZ, .printReport]
    ∧ (process allStagesSucceed).caught = [] := by
  decide

/-- C3 counterexample. The claim says an error thrown by fetchWARCsCrawlInfo
(the EnrichCrawlInfo stage) is logged and the pipeline continues without
returning the failure value. In the source that catch ends in `return false`:
on a run where only fetchWARCsCrawlInfo throws, process returns false and
the title-resolution stage never runs. -/
theorem process_crawlinfo_error_aborts_counterexample :
    (process { allStagesSucceed with fetchWARCsCrawlInfo := false }).ret = some false
    ∧ PipelineStage.fetchCrawledUrlsTitle ∉
        (process { allStagesSucceed with fetchWARCsCrawlInfo := false }).executed
    ∧ PipelineStage.fetchWARCsCrawlInfo ∈
        (process { allStagesSucceed with fetchWARCsCrawlInfo := false }).caught := by
  decide

set_option maxHeartbeats 2000000 in
/-- C3 (amended). Errors of the ResolveTitles stage (fetchCrawledUrlsTitle)
are logged and change neither the return value nor which stages run; an error
of the EnrichCrawlInfo stage (fetchWARCsCrawlInfo) is logged but aborts the
pipeline with the overall failure value, skipping title resolution. -/
theorem process_titles_nonblocking_crawlinfo_blocking :
    ∀ o : StageOutcomes,
      ((process { o with fetchCrawledUrlsTitle := false }).ret
          = (process { o with fetchCrawledUrlsTitle := true }).ret)
      ∧ ((process { o with fetchCrawledUrlsTitle := false }).executed
          = (process { o with fetchCrawledUrlsTitle := true }).executed)
      ∧ (PipelineStage.fetchCrawledUrlsTitle ∈
            (process { o with fetchCrawledUrlsTitle := false }).executed →
          PipelineStage.fetchCrawledUrlsTitle ∈
            (process { o with fetchCrawledUrlsTitle := false }).caught)
      ∧ (o.fetchWARCsCrawlInfo = false →
          PipelineStage.fetchWARCsCrawlInfo ∈ (process o).executed →
          (process o).ret = some false
          ∧ PipelineStage.fetchWARCsCrawlInfo ∈ (process o).caught
          ∧ PipelineStage.fetchCrawledUrlsTitle ∉ (process o).executed) := by
  intro o
  obtain ⟨a, b, c, d, e, f, g, h, i, j, k, l⟩ := o
  revert a b c d e f g h i j k l
  decide

/-- C3 witness: the amended theorem applied to the run in which only
fetchWARCsCrawlInfo throws. -/
theorem process_titles_nonblocking_crawlinfo_blocking_witness :
    (process { allStagesSucceed with fetchWARCsCrawlInfo := false }).ret = some false
    ∧ PipelineStage.fetchWARCsCrawlInfo ∈
        (process { allStagesSucceed with fetchWARCsCrawlInfo := false }).caught
    ∧ PipelineStage.fetchCrawledUrlsTitle ∉
        (process { allStagesSucceed with fetchWARCsCrawlInfo := false }).executed :=
  (process_titles_nonblocking_crawlinfo_blocking
    { allStagesSucceed with fetchWARCsCrawlInfo := false }).2.2.2 rfl (by decide)

/-- C2 counterexample. The claim says a CrawledPage whose timestamp fails
normalization produces no page entry at all. On a record with a truthy title
and a timestamp no date parser accepts, generatePagesList still pushes an
entry — with a null `ts` — so the pages output is not empty. -/
theorem generatePagesList_unparseable_ts_counterexample :
    generatePagesList (fun _ => none)
      [⟨none, false, "example.warc.gz".toList, none, none, none,
        [⟨none, some "https://example.com".toList, some "garbage".toList,
          some "T".toList⟩]⟩]
      = [⟨some "https://example.com".toList, "T".toList, none⟩] := by
  decide

/-- C2 (amended). A CrawledPage of a non-skipped reference with a truthy title
whose timestamp fails normalization is still emitted, as a page entry whose
`ts` field is null — the push in the source is unconditional once the title
check passes, and formatTimestamp returns null from its catch. -/
theorem generatePagesList_unparseable_ts_still_emitted
    (dateToIso : JSStr → Option JSStr)
    (ws1 ws2 : List ArchiveItWARCReference) (r : ArchiveItWARCReference)
    (cs1 cs2 : List ArchiveItCrawledUrl) (c : ArchiveItCrawledUrl) (t : JSStr)
    (hm : jsContains r.filename MISSING_URLS_PATCH = false)
    (ht : c.title = some t) (hne : t.isEmpty = false)
    (hts : formatTimestamp dateToIso c.timestamp = none) :
    (⟨c.url, t, none⟩ : WACZPage) ∈
      generatePagesList dateToIso (ws1 ++ { r with crawledUrls := cs1 ++ c :: cs2 } :: ws2) := by
  have hc : pageOfCrawl dateToIso c = some ⟨c.url, t, none⟩ := by
    simp [pageOfCrawl, ht, hne, hts]
  simp only [generatePagesList, List.map_append, List.map_cons, List.flatten_append,
    List.flatten_cons]
  apply List.mem_append_right
  apply List.mem_append_left
  simp only [pagesOfWARC, hm]
  simp only [Bool.false_eq_true, if_false, List.filterMap_append]
  apply List.mem_append_right
  simp [hc]

/-- C2 witness: the amended theorem at a concrete one-reference collection
whose single crawl has an unparseable timestamp. -/
theorem generatePagesList_unparseable_ts_still_emitted_witness :
    (⟨some "https://example.com".toList, "T".toList, none⟩ : WACZPage) ∈
      generatePagesList (fun _ => none)
        [⟨none, false, "example.warc.gz".toList, none, none, none,
          [⟨none, some "https://example.com".toList, some "garbage".toList,
            some "T".toList⟩]⟩] :=
  generatePagesList_unparseable_ts_still_emitted (fun _ => none) [] []
    ⟨none, false, "example.warc.gz".toList, none, none, none, []⟩ [] []
    ⟨none, some "https://example.com".toList, some "garbage".toList, some "T".toList⟩
    "T".toList (by decide) rfl (by decide) rfl

/-- C4 counterexample. The claim says every directory entry without the
".warc.gz" extension is left untouched. The source keeps an entry only when it
both has the extension and is referenced: a plain file named notes.txt in the
working directory is deleted. -/
theorem deleteLooseWARCs_deletes_plain_file_counterexample :
    "notes.txt".toList ∈ (deleteLooseWARCs [] ["notes.txt".toList]).2
    ∧ jsEndsWith "notes.txt".toList warcGzSuffix = false := by
  decide

/-- C4 (amended). deleteLooseWARCs deletes exactly the working-directory
entries that are not both capture files (name ending in ".warc.gz") and in
the current WARC reference set keyed by filename; in particular entries
without the capture extension are deleted too, not left untouched. -/
theorem deleteLooseWARCs_deletion_characterized
    (WARCs : List ArchiveItWARCReference) (dir : List JSStr) (f : JSStr) :
    (f ∈ (deleteLooseWARCs WARCs dir).2 ↔
      f ∈ dir ∧ ¬(jsEndsWith f warcGzSuffix = true ∧ f ∈ WARCs.map (fun w => w.filename)))
    ∧ (f ∈ (deleteLooseWARCs WARCs dir).1 ↔
      f ∈ dir ∧ jsEndsWith f warcGzSuffix = true ∧ f ∈ WARCs.map (fun w => w.filename)) := by
  have key : ∀ x : JSStr,
      (jsEndsWith x warcGzSuffix && (WARCs.map (fun w => w.filename)).contains x) = true
        ↔ (jsEndsWith x warcGzSuffix = true ∧ x ∈ WARCs.map (fun w => w.filename)) := by
    intro x
    simp [List.contains, Bool.and_eq_true]
  constructor
  · simp only [deleteLooseWARCs, List.mem_filter, Bool.not_eq_true']
    rw [← key f]
    simp
  · simp only [deleteLooseWARCs, List.mem_filter]
    rw [key f]

/-- C5. The claim says every crawled url of every non-marker reference gets a
title-resolution attempt. The flush guard of the source reads
`group.length >= concurrency || i >= this.WARCs.length`, whose second disjunct
is unreachable inside the loop (the sibling crawl-info loop uses
`i === this.WARCs.length - 1`), so the pending group is dropped when the
references run out, and a group that fills mid-reference abandons the rest of
that reference. At concurrency 2, a single reference with one crawled url gets
zero attempts; at concurrency 1, only the first of two crawled urls is
attempted. -/
theorem fetchCrawledUrlsTitle_never_launches_last_group :
    fetchCrawledUrlsTitleAttempts 2
      [⟨none, false, "example.warc.gz".toList, none, none, none,
        [⟨some 1, some "https://example.com".toList, some "ts".toList, none⟩]⟩] = []
    ∧ fetchCrawledUrlsTitleAttempts 1
      [⟨none, false, "example.warc.gz".toList, none, none, none,
        [⟨some 1, some "a".toList, none, none⟩, ⟨some 2, some "b".toList, none, none⟩]⟩]
      = [⟨some 1, some "a".toList, none, none⟩] := by
  decide

/-- C6. The claim says a scraped title equal to the sentinel placeholder is
discarded and the crawl title stays null. The source compares the local
`title` variable — provably null or empty on this path — against the sentinel
before overwriting it with the extracted text, so the sentinel text itself is
stored as the title. -/
theorem resolveOneTitle_stores_sentinel :
    resolveOneTitle none (some ⟨200, true, archiveItWaybackSentinel⟩) none
      = some archiveItWaybackSentinel := by
  decide

/-- C7. After checkWARCsHashes, each reference satisfies: absent local file —
marked not downloaded; present file whose computed digest is truthy and
differs from the remote hash — local file deleted and marked not downloaded;
present file whose digest equals the remote hash — marked downloaded. The
digest-nonempty hypothesis reflects that a hex SHA-1 digest is never the empty
string. -/
theorem checkWARCsHashes_postconditions (sha1 : JSStr → JSStr)
    (entries : List (ArchiveItWARCReference × LocalFile)) (i : Nat)
    (hi : i < entries.length)
    (hlen : i < (checkWARCsHashes sha1 entries).length) :
    ((entries.get ⟨i, hi⟩).2.present = false →
      ((checkWARCsHashes sha1 entries).get ⟨i, hlen⟩).1.downloaded = false)
    ∧ (∀ data, (entries.get ⟨i, hi⟩).2.present = true →
        (entries.get ⟨i, hi⟩).2.content = some data →
        (sha1 data).isEmpty = false →
        some (sha1 data) ≠ (entries.get ⟨i, hi⟩).1.remoteSHA1Hash →
        ((checkWARCsHashes sha1 entries).get ⟨i, hlen⟩).2 = false
          ∧ ((checkWARCsHashes sha1 entries).get ⟨i, hlen⟩).1.downloaded = false)
    ∧ (∀ data, (entries.get ⟨i, hi⟩).2.present = true →
        (entries.get ⟨i, hi⟩).2.content = some data →
        some (sha1 data) = (entries.get ⟨i, hi⟩).1.remoteSHA1Hash →
        ((checkWARCsHashes sha1 entries).get ⟨i, hlen⟩).1.downloaded = true
          ∧ ((checkWARCsHashes sha1 entries).get ⟨i, hlen⟩).2 = true) := by
  have hget : (checkWARCsHashes sha1 entries).get ⟨i, hlen⟩
      = checkOneWARCHash sha1 (entries.get ⟨i, hi⟩).2 (entries.get ⟨i, hi⟩).1 := by
    simp only [checkWARCsHashes, List.get_eq_getElem, List.getElem_map]
  rw [hget]
  have hc := checkOneWARCHash_cases sha1 (entries.get ⟨i, hi⟩).2 (entries.get ⟨i, hi⟩).1
  exact ⟨fun h => (hc.1 h).1, hc.2.1, hc.2.2⟩

/-- C7 witness: the postcondition theorem at a single present entry whose
computed digest differs from the remote hash — the local copy is deleted and
the entry marked not downloaded. -/
theorem checkWARCsHashes_postconditions_witness :
    ((checkWARCsHashes (fun _ => "aa".toList)
        [(⟨none, false, "f.warc.gz".toList, some "bb".toList, none, none, []⟩,
          ⟨true, some "data".toList⟩)]).get ⟨0, by decide⟩).2 = false
    ∧ ((checkWARCsHashes (fun _ => "aa".toList)
        [(⟨none, false, "f.warc.gz".toList, some "bb".toList, none, none, []⟩,
          ⟨true, some "data".toList⟩)]).get ⟨0, by decide⟩).1.downloaded = false :=
  (checkWARCsHashes_postconditions (fun _ => "aa".toList)
    [(⟨none, false, "f.warc.gz".toList, some "bb".toList, none, none, []⟩,
      ⟨true, some "data".toList⟩)] 0 (by decide) (by decide)).2.1
    "data".toList rfl rfl (by decide) (by decide)

/-- C8. In every batched stage, once the concurrency limit is at least 1, the
settled per-item outcomes cover exactly the items the loop launches — for the
crawl-info stage every reference, for the download stage every reference
marked not downloaded, for the title stage every launched candidate — one
outcome per item, computed by that items own operation. A rejection is one
`Except.error` outcome among the others: it neither removes sibling outcomes
from its group nor prevents later groups from settling. -/
theorem batched_stages_settle_every_item {ε : Type} (concurrency : Nat)
    (hc : 1 ≤ concurrency)
    (opCrawlInfo opFetch : ArchiveItWARCReference → Except ε Unit)
    (opTitle : ArchiveItCrawledUrl → Except ε Unit)
    (WARCs : List ArchiveItWARCReference) :
    (fetchWARCsCrawlInfoOutcomes concurrency opCrawlInfo WARCs).flatten
      = WARCs.map opCrawlInfo
    ∧ (fetchWARCsOutcomes concurrency opFetch WARCs).flatten
      = (WARCs.filter (fun r => !r.downloaded)).map opFetch
    ∧ (fetchCrawledUrlsTitleOutcomes concurrency opTitle WARCs).flatten
      = (fetchCrawledUrlsTitleAttempts concurrency WARCs).map opTitle := by
  refine ⟨?_, ?_, ?_⟩
  · simp only [fetchWARCsCrawlInfoOutcomes, settleGroup_eq_map, ← List.map_flatten,
      fetchWARCsCrawlInfoGroups]
    cases WARCs with
    | nil => simp [crawlInfoGroupsLoop]
    | cons w ws =>
      rw [crawlInfoGroupsLoop_flatten concurrency (w :: ws) [] (by simp) (by simpa using hc)]
      simp
  · simp only [fetchWARCsOutcomes, settleGroup_eq_map, ← List.map_flatten, fetchWARCsGroups]
    cases WARCs with
    | nil => simp [fetchWARCsGroupsLoop]
    | cons w ws =>
      rw [fetchWARCsGroupsLoop_flatten concurrency (w :: ws) [] (by simp) (by simpa using hc)]
      simp
  · simp only [fetchCrawledUrlsTitleOutcomes, settleGroup_eq_map, ← List.map_flatten,
      fetchCrawledUrlsTitleAttempts]

/-- C8 witness: the theorem at concurrency 1 over three references where the
middle operation rejects — the outcome list still covers all three. -/
theorem batched_stages_settle_every_item_witness :
    (fetchWARCsCrawlInfoOutcomes 1
        (fun r => if r.filename = "b.warc.gz".toList then Except.error (7 : Nat)
                  else Except.ok ())
        [⟨none, false, "a.warc.gz".toList, none, none, none, []⟩,
         ⟨none, false, "b.warc.gz".toList, none, none, none, []⟩,
         ⟨none, true, "c.warc.gz".toList, none, none, none, []⟩]).flatten
      = ([⟨none, false, "a.warc.gz".toList, none, none, none, []⟩,
          ⟨none, false, "b.warc.gz".toList, none, none, none, []⟩,
          ⟨none, true, "c.warc.gz".toList, none, none, none, []⟩] :
            List ArchiveItWARCReference).map
          (fun r => if r.filename = "b.warc.gz".toList then Except.error (7 : Nat)
                    else Except.ok ())
    ∧ (fetchWARCsOutcomes 1
        (fun r => if r.filename = "b.warc.gz".toList then Except.error (7 : Nat)
                  else Except.ok ())
        [⟨none, false, "a.warc.gz".toList, none, none, none, []⟩,
         ⟨none, false, "b.warc.gz".toList, none, none, none, []⟩,
         ⟨none, true, "c.warc.gz".toList, none, none, none, []⟩]).flatten
      = (([⟨none, false, "a.warc.gz".toList, none, none, none, []⟩,
           ⟨none, false, "b.warc.gz".toList, none, none, none, []⟩,
           ⟨none, true, "c.warc.gz".toList, none, none, none, []⟩] :
             List ArchiveItWARCReference).filter
           (fun r => !r.downloaded)).map
          (fun r => if r.filename = "b.warc.gz".toList then Except.error (7 : Nat)
                    else Except.ok ())
    ∧ (fetchCrawledUrlsTitleOutcomes 1
        (fun _ => Except.ok () : ArchiveItCrawledUrl → Except Nat Unit)
        [⟨none, false, "a.warc.gz".toList, none, none, none, []⟩,
         ⟨none, false, "b.warc.gz".toList, none, none, none, []⟩,
         ⟨none, true, "c.warc.gz".toList, none, none, none, []⟩]).flatten
      = (fetchCrawledUrlsTitleAttempts 1
          [⟨none, false, "a.warc.gz".toList, none, none, none, []⟩,
           ⟨none, false, "b.warc.gz".toList, none, none, none, []⟩,
           ⟨none, true, "c.warc.gz".toList, none, none, none, []⟩]).map
          (fun _ => (Except.ok () : Except Nat Unit)) :=
  batched_stages_settle_every_item 1 (by decide)
    (fun r => if r.filename = "b.warc.gz".toList then Except.error (7 : Nat)
              else Except.ok ())
    (fun r => if r.filename = "b.warc.gz".toList then Except.error (7 : Nat)
              else Except.ok ())
    (fun _ => Except.ok ())
    [⟨none, false, "a.warc.gz".toList, none, none, none, []⟩,
     ⟨none, false, "b.warc.gz".toList, none, none, none, []⟩,
     ⟨none, true, "c.warc.gz".toList, none, none, none, []⟩]

/-- C9. generatePagesList never emits an entry for a crawl with a null title,
and a reference whose filename contains the MISSING_URLS_PATCH marker
contributes nothing: inserting such a reference, or a null-title crawl into
any reference, leaves the output unchanged. -/
theorem generatePagesList_exclusions (dateToIso : JSStr → Option JSStr)
    (ws1 ws2 : List ArchiveItWARCReference) (e r : ArchiveItWARCReference)
    (cs1 cs2 : List ArchiveItCrawledUrl) (c : ArchiveItCrawledUrl) :
    (jsContains e.filename MISSING_URLS_PATCH = true →
      generatePagesList dateToIso (ws1 ++ e :: ws2)
        = generatePagesList dateToIso (ws1 ++ ws2))
    ∧ (c.title = none →
      generatePagesList dateToIso (ws1 ++ { r with crawledUrls := cs1 ++ c :: cs2 } :: ws2)
        = generatePagesList dateToIso (ws1 ++ { r with crawledUrls := cs1 ++ cs2 } :: ws2)) := by
  constructor
  · intro h
    simp [generatePagesList, pagesOfWARC, h]
  · intro h
    simp only [generatePagesList, List.map_append, List.map_cons, List.flatten_append,
      List.flatten_cons]
    congr 2
    simp only [pagesOfWARC]
    cases hm : jsContains r.filename MISSING_URLS_PATCH
    · simp [List.filterMap_append, pageOfCrawl, h]
    · simp

/-- C9 witness: the exclusion theorem applied to a marker reference holding a
titled crawl, and to a plain reference holding one null-title crawl. -/
theorem generatePagesList_exclusions_witness :
    generatePagesList (fun _ => none)
      [⟨none, false, "x-MISSING_URLS_PATCH-1.warc.gz".toList, none, none, none,
        [⟨none, some "https://example.com".toList, some "t".toList, some "T".toList⟩]⟩]
      = generatePagesList (fun _ => none) []
    ∧ generatePagesList (fun _ => none)
        [⟨none, false, "a.warc.gz".toList, none, none, none,
          [⟨none, some "https://example.com".toList, some "t".toList, none⟩]⟩]
      = generatePagesList (fun _ => none)
        [⟨none, false, "a.warc.gz".toList, none, none, none, []⟩] :=
  ⟨(generatePagesList_exclusions (fun _ => none) [] []
      ⟨none, false, "x-MISSING_URLS_PATCH-1.warc.gz".toList, none, none, none,
        [⟨none, some "https://example.com".toList, some "t".toList, some "T".toList⟩]⟩
      ⟨none, false, "".toList, none, none, none, []⟩ [] []
      ⟨none, none, none, none⟩).1 (by decide),
   (generatePagesList_exclusions (fun _ => none) [] []
      ⟨none, false, "".toList, none, none, none, []⟩
      ⟨none, false, "a.warc.gz".toList, none, none, none, []⟩ [] []
      ⟨none, some "https://example.com".toList, some "t".toList, none⟩).2 rfl⟩

/-- C10 counterexample. The claim says a missing or non-positive concurrency
option is replaced by the default with a warning. A missing option — and a
zero option, which is falsy — skip the branch silently: the default is kept
and `log.warn` never runs. -/
theorem filterConcurrency_no_warning_counterexample :
    filterConcurrency (fun _ => none) none = (50, false)
    ∧ filterConcurrency (fun _ => none) (some (JSVal.vnum 0)) = (50, false) := by
  decide

/-- C10 (amended). After the constructor, `this.concurrency` is strictly
positive and the branch never throws; a missing or falsy option (including 0
and NaN) keeps the default 50 silently, a truthy option coercing to a positive
number is stored, and a truthy option coercing to NaN or a non-positive number
keeps the default 50 with a warning. -/
theorem filterConcurrency_invariant (strToNum : JSStr → Option Int)
    (opt : Option JSVal) :
    0 < (filterConcurrency strToNum opt).1
    ∧ (opt = none → filterConcurrency strToNum opt = (50, false))
    ∧ (∀ v, opt = some v → v.truthy = false → filterConcurrency strToNum opt = (50, false))
    ∧ (∀ v n, opt = some v → v.truthy = true → jsNumber strToNum v = some n → 0 < n →
        filterConcurrency strToNum opt = (n, false))
    ∧ (∀ v n, opt = some v → v.truthy = true → jsNumber strToNum v = some n → n ≤ 0 →
        filterConcurrency strToNum opt = (50, true))
    ∧ (∀ v, opt = some v → v.truthy = true → jsNumber strToNum v = none →
        filterConcurrency strToNum opt = (50, true)) := by
  refine ⟨?_, ?_, ?_, ?_, ?_, ?_⟩
  · cases opt with
    | none => simp [filterConcurrency]
    | some v =>
      cases hv : v.truthy
      · simp [filterConcurrency, hv]
      · cases hn : jsNumber strToNum v with
        | none => simp [filterConcurrency, hv, hn]
        | some n =>
          by_cases h0 : 0 < n
          · simp [filterConcurrency, hv, hn, h0]
          · simp [filterConcurrency, hv, hn, h0]
  · rintro rfl; simp [filterConcurrency]
  · rintro v rfl hv; simp [filterConcurrency, hv]
  · rintro v n rfl hv hn h0; simp [filterConcurrency, hv, hn, h0]
  · rintro v n rfl hv hn h0; simp [filterConcurrency, hv, hn, Int.not_lt.mpr h0]
  · rintro v rfl hv hn; simp [filterConcurrency, hv, hn]

/-- C10 witness: the invariant theorem at a negative numeric option — the
default is restored with a warning — plus the positivity invariant there. -/
theorem filterConcurrency_invariant_witness :
    0 < (filterConcurrency (fun _ => none) (some (JSVal.vnum (-3)))).1
    ∧ filterConcurrency (fun _ => none) (some (JSVal.vnum (-3))) = (50, true) :=
  ⟨(filterConcurrency_invariant (fun _ => none) (some (JSVal.vnum (-3)))).1,
   (filterConcurrency_invariant (fun _ => none) (some (JSVal.vnum (-3)))).2.2.2.2.1
     (JSVal.vnum (-3)) (-3) rfl (by decide) rfl (by decide)⟩
